import Mathlib

/-!
# Verification of the coin-ledger storage layer and route handlers

A shallow embedding of the data-access layer (`DatabaseStorage`) and the
Express route handlers (`registerRoutes`).  The database is modelled as an
explicit state (`DBState`) holding the six tables as lists of rows; each
storage method becomes a pure state-passing function, and each route handler
a function from a request (plus the DB-generated ids and the clock) to an
outcome and a new state.  Storage write failures, which in the source surface
as thrown exceptions caught by the `catch` block of the route, are modelled by a
`FaultOracle` saying which write call throws.
-/

/-- A row of the `users` table.  Fields from the shared schema: identity id,
profile fields, `coinBalance`, and the two timestamps. -/
structure User where
  id : String
  email : String
  firstName : String
  coinBalance : Int
  createdAt : Nat
  updatedAt : Nat
  deriving Repr, DecidableEq

/-- The insertable shape for `upsertUser` (`UpsertUser`): the caller supplies
identity and profile fields; `coinBalance` and timestamps are managed by the
storage layer. -/
structure UpsertUser where
  id : String
  email : String
  firstName : String
  deriving Repr, DecidableEq

/-- A row of the `appointments` table. -/
structure Appointment where
  id : String
  userId : String
  serviceTitle : String
  appointmentDate : Nat
  coinsEarned : Int
  status : String
  createdAt : Nat
  deriving Repr, DecidableEq

/-- A row of the `products` table. -/
structure Product where
  id : String
  title : String
  price : Int
  isActive : Bool
  createdAt : Nat
  updatedAt : Nat
  deriving Repr, DecidableEq

/-- A row of the `orders` table. -/
structure Order where
  id : String
  userId : String
  total : Int
  coinsUsed : Int
  createdAt : Nat
  deriving Repr, DecidableEq

/-- A row of the `messages` table. -/
structure Message where
  id : String
  userId : String
  senderRole : String
  body : String
  isRead : Bool
  createdAt : Nat
  deriving Repr, DecidableEq

/-- A row of the `coin_transactions` table. -/
structure CoinTransaction where
  id : String
  userId : String
  amount : Int
  txType : String
  txDescription : String
  relatedId : Option String
  createdAt : Nat
  deriving Repr, DecidableEq

/-- The insertable shape for `addCoinTransaction` (`InsertCoinTransaction`). -/
structure InsertCoinTransaction where
  userId : String
  amount : Int
  txType : String
  txDescription : String
  relatedId : Option String
  deriving Repr, DecidableEq

/-- The database: the six tables of the schema, each as a list of rows in
insertion order. -/
structure DBState where
  users : List User
  appointments : List Appointment
  products : List Product
  orders : List Order
  messages : List Message
  coinTransactions : List CoinTransaction
  deriving Repr, DecidableEq

/-! ## Ordering used by the list queries

The drizzle `orderBy(desc(col))` clause is modelled by an insertion sort on the
relevant `Nat`-valued column, largest key first. -/

/-- Insert `x` into a list sorted descending by `key`, keeping it sorted. -/
def insertDescBy (key : α → Nat) (x : α) : List α → List α
  | [] => [x]
  | y :: ys => if key y < key x then x :: y :: ys else y :: insertDescBy key x ys

/-- Sort a list descending by `key`. -/
def sortDescBy (key : α → Nat) : List α → List α
  | [] => []
  | x :: xs => insertDescBy key x (sortDescBy key xs)

/-! ## DatabaseStorage -/

/-- Source `getUser(id)`: `select … where eq(users.id, id)`, first row or absent. -/
def getUser (id : String) (s : DBState) : Option User :=
  s.users.find? (fun u => u.id == id)

/-- The `set` clause of the `onConflictDoUpdate` in `upsertUser`: overwrite the
provided fields and refresh `updatedAt`. -/
def applyUpsert (d : UpsertUser) (now : Nat) (u : User) : User :=
  { u with email := d.email, firstName := d.firstName, updatedAt := now }

/-- The row-wise effect of the conflict update: rows whose id conflicts with
the inserted data get the overwrite, all others are untouched. -/
def upsertRow (d : UpsertUser) (now : Nat) (v : User) : User :=
  if v.id == d.id then applyUpsert d now v else v

/-- Source `upsertUser(userData)`: insert, or on id conflict overwrite the provided
fields and set `updatedAt` to now, returning the affected row.

Modelled from the spec for the part of the schema that is not in the sources
(`@shared/schema`): a freshly inserted user starts with a zero coin balance
and server-filled timestamps. -/
def upsertUser (d : UpsertUser) (now : Nat) (s : DBState) : User × DBState :=
  match s.users.find? (fun u => u.id == d.id) with
  | some u =>
      (applyUpsert d now u, { s with users := s.users.map (upsertRow d now) })
  | none =>
      let nu : User :=
        { id := d.id, email := d.email, firstName := d.firstName,
          coinBalance := 0, createdAt := now, updatedAt := now }
      (nu, { s with users := s.users ++ [nu] })

/-- The insertable shape for `createAppointment` (`InsertAppointment`):
the route merges the authenticated `userId` into the request body. -/
structure InsertAppointment where
  userId : String
  serviceTitle : String
  appointmentDate : Nat
  coinsEarned : Int
  deriving Repr, DecidableEq

/-- Source `createAppointment(appointment)`: insert with DB-generated id and
timestamp, returning the new row.  The lifecycle starts at `"created"`. -/
def createAppointment (d : InsertAppointment) (genId : String) (now : Nat)
    (s : DBState) : Appointment × DBState :=
  let a : Appointment :=
    { id := genId, userId := d.userId, serviceTitle := d.serviceTitle,
      appointmentDate := d.appointmentDate, coinsEarned := d.coinsEarned,
      status := "created", createdAt := now }
  (a, { s with appointments := s.appointments ++ [a] })

/-- Source `getUserAppointments(userId)`: the rows of the user ordered by
`desc(appointments.appointmentDate)`. -/
def getUserAppointments (userId : String) (s : DBState) : List Appointment :=
  sortDescBy (fun a => a.appointmentDate)
    (s.appointments.filter (fun a => a.userId == userId))

/-- Source `getAllAppointments()`: all rows ordered by `desc(appointments.createdAt)`. -/
def getAllAppointments (s : DBState) : List Appointment :=
  sortDescBy (fun a => a.createdAt) s.appointments

/-- The row-wise effect, on the rows matched by the `where` filter, of the
status-setting `set` clause in `updateAppointmentStatus`. -/
def setStatus (id status : String) (a : Appointment) : Appointment :=
  if a.id == id then { a with status := status } else a

/-- Source `updateAppointmentStatus(id, status)`: `update … set { status } where id`,
returning the first affected row (`undefined`, i.e. `none`, when no row
matches). -/
def updateAppointmentStatus (id status : String) (s : DBState) :
    Option Appointment × DBState :=
  let apps := s.appointments.map (setStatus id status)
  (apps.find? (fun a => a.id == id), { s with appointments := apps })

/-- Source `getProducts()`: rows with `isActive = true` ordered by
`desc(products.createdAt)`. -/
def getProducts (s : DBState) : List Product :=
  sortDescBy (fun p => p.createdAt) (s.products.filter (fun p => p.isActive))

/-- Source `getProduct(id)`: first row with the id, or absent. -/
def getProduct (id : String) (s : DBState) : Option Product :=
  s.products.find? (fun p => p.id == id)

/-- The insertable shape for `createOrder` (`InsertOrder`). -/
structure InsertOrder where
  userId : String
  total : Int
  coinsUsed : Int
  deriving Repr, DecidableEq

/-- Source `createOrder(order)`: insert with DB-generated id and timestamp. -/
def createOrder (d : InsertOrder) (genId : String) (now : Nat)
    (s : DBState) : Order × DBState :=
  let o : Order :=
    { id := genId, userId := d.userId, total := d.total,
      coinsUsed := d.coinsUsed, createdAt := now }
  (o, { s with orders := s.orders ++ [o] })

/-- Source `getUserOrders(userId)`: the rows of the user ordered by `desc(orders.createdAt)`. -/
def getUserOrders (userId : String) (s : DBState) : List Order :=
  sortDescBy (fun o => o.createdAt) (s.orders.filter (fun o => o.userId == userId))

/-- Source `getAllOrders()`: all rows ordered by `desc(orders.createdAt)`. -/
def getAllOrders (s : DBState) : List Order :=
  sortDescBy (fun o => o.createdAt) s.orders

/-- Source `getUserMessages(userId)`: the rows of the user ordered by `desc(messages.createdAt)`. -/
def getUserMessages (userId : String) (s : DBState) : List Message :=
  sortDescBy (fun m => m.createdAt) (s.messages.filter (fun m => m.userId == userId))

/-- Source `getAdminMessages()`: all rows ordered by `desc(messages.createdAt)`. -/
def getAdminMessages (s : DBState) : List Message :=
  sortDescBy (fun m => m.createdAt) s.messages

/-- Source `addCoinTransaction(transaction)`: insert with DB-generated id and
timestamp, returning the new row. -/
def addCoinTransaction (d : InsertCoinTransaction) (genId : String) (now : Nat)
    (s : DBState) : CoinTransaction × DBState :=
  let t : CoinTransaction :=
    { id := genId, userId := d.userId, amount := d.amount, txType := d.txType,
      txDescription := d.txDescription, relatedId := d.relatedId, createdAt := now }
  (t, { s with coinTransactions := s.coinTransactions ++ [t] })

/-- Source `getUserCoinTransactions(userId)`: the rows of the user ordered by
`desc(coinTransactions.createdAt)`. -/
def getUserCoinTransactions (userId : String) (s : DBState) : List CoinTransaction :=
  sortDescBy (fun t => t.createdAt)
    (s.coinTransactions.filter (fun t => t.userId == userId))

/-- The row transformation of the `set` clause in `updateUserCoins`: the storage
engine applies `coinBalance = coinBalance + amount` and refreshes `updatedAt`. -/
def bumpUser (userId : String) (amount : Int) (now : Nat) (u : User) : User :=
  if u.id == userId then
    { u with coinBalance := u.coinBalance + amount, updatedAt := now }
  else u

/-- Source `updateUserCoins(userId, amount)`: `update … set coinBalance =
coinBalance + amount where id`, returning the first affected row.  When no
row matches, `.returning()` yields an empty array and the destructured value
is `undefined` (`none`); no error is raised. -/
def updateUserCoins (userId : String) (amount : Int) (now : Nat)
    (s : DBState) : Option User × DBState :=
  let users := s.users.map (bumpUser userId amount now)
  (users.find? (fun u => u.id == userId), { s with users := users })

/-! ## Route handlers (`registerRoutes`)

The `try` block of each handler is a sequence of storage calls; any thrown storage
error is caught and answered with `res.status(400).json({ message })`, with no
compensation of earlier writes.  The `FaultOracle` says which storage write
throws; the message of an injected failure (`error.message`) is surfaced verbatim
by the `catch` block, modelled as the string `"StorageError"`. -/

/-- Which storage write calls throw during a request. -/
structure FaultOracle where
  failCreateAppointment : Bool
  failAddCoinTx : Bool
  failUpdateUserCoins : Bool
  failCreateOrder : Bool
  deriving Repr, DecidableEq

/-- The oracle of a normal run: no storage call fails. -/
def okOracle : FaultOracle := ⟨false, false, false, false⟩

/-- The handler response: `res.json(entity)` or `res.status(400).json({message})`. -/
inductive RouteOutcome (α : Type) where
  | ok : α → RouteOutcome α
  | badRequest : String → RouteOutcome α
  deriving Repr, DecidableEq

/-- The appointment request body (the fields of the insert schema other than
the server-merged `userId`). -/
structure AppointmentBody where
  serviceTitle : String
  appointmentDate : Nat
  coinsEarned : Int
  deriving Repr, DecidableEq

/-- The order request body. -/
structure OrderBody where
  total : Int
  coinsUsed : Int
  deriving Repr, DecidableEq

/-- Modelled from the spec: `insertOrderSchema.parse` (from `@shared/schema`,
not in the sources) merges the authenticated `userId` into the body and
rejects malformed/out-of-range input, e.g. a negative coin amount, before any
storage call runs. -/
def parseOrder (userId : String) (body : OrderBody) : Option InsertOrder :=
  if body.coinsUsed < 0 then none
  else some { userId := userId, total := body.total, coinsUsed := body.coinsUsed }

/-- Source `POST /api/appointments`: parse the body with the merged `userId`, create
the appointment, append an `earned_appointment` ledger entry for
`appointment.coinsEarned`, then add those coins to the balance of the user.  The
three storage calls are sequential and independent: a failure is caught and
reported, leaving every earlier write in place. -/
def postAppointment (o : FaultOracle) (userId : String) (body : AppointmentBody)
    (genAppId genTxId : String) (now : Nat) (s : DBState) :
    RouteOutcome Appointment × DBState :=
  let d : InsertAppointment :=
    { userId := userId, serviceTitle := body.serviceTitle,
      appointmentDate := body.appointmentDate, coinsEarned := body.coinsEarned }
  if o.failCreateAppointment then (.badRequest "StorageError", s)
  else
    let (app, s1) := createAppointment d genAppId now s
    if o.failAddCoinTx then (.badRequest "StorageError", s1)
    else
      let (_, s2) := addCoinTransaction
        { userId := userId, amount := app.coinsEarned, txType := "earned_appointment",
          txDescription := "הרווחת " ++ toString app.coinsEarned
            ++ " מטבעות על הזמנת " ++ app.serviceTitle,
          relatedId := some app.id } genTxId now s1
      if o.failUpdateUserCoins then (.badRequest "StorageError", s2)
      else
        let (_, s3) := updateUserCoins userId app.coinsEarned now s2
        (.ok app, s3)

/-- Source `POST /api/orders`: parse (validation happens first, inside the `try`);
when `coinsUsed > 0`, check the balance and answer 400 when the user is
missing or short of funds, otherwise deduct the coins and append a `redeemed`
ledger entry; finally insert the order. -/
def postOrder (o : FaultOracle) (userId : String) (body : OrderBody)
    (genOrderId genTxId : String) (now : Nat) (s : DBState) :
    RouteOutcome Order × DBState :=
  match parseOrder userId body with
  | none => (.badRequest "ValidationFailed", s)
  | some d =>
    if d.coinsUsed > 0 then
      match getUser userId s with
      | none => (.badRequest "אין מספיק מטבעות", s)
      | some u =>
        if u.coinBalance < d.coinsUsed then (.badRequest "אין מספיק מטבעות", s)
        else if o.failUpdateUserCoins then (.badRequest "StorageError", s)
        else
          let (_, s1) := updateUserCoins userId (-d.coinsUsed) now s
          if o.failAddCoinTx then (.badRequest "StorageError", s1)
          else
            let (_, s2) := addCoinTransaction
              { userId := userId, amount := -d.coinsUsed, txType := "redeemed",
                txDescription := "נוצלו " ++ toString d.coinsUsed ++ " מטבעות לרכישה",
                relatedId := none } genTxId now s1
            if o.failCreateOrder then (.badRequest "StorageError", s2)
            else
              let (ord, s3) := createOrder d genOrderId now s2
              (.ok ord, s3)
    else
      if o.failCreateOrder then (.badRequest "StorageError", s)
      else
        let (ord, s1) := createOrder d genOrderId now s
        (.ok ord, s1)

/-! ## The coin-affecting operations and the ledger invariant -/

/-- A coin-affecting request: booking an appointment (awards coins) or placing
an order (may redeem coins), each with its generated ids and timestamp. -/
inductive CoinOp where
  | bookAppointment (userId : String) (body : AppointmentBody)
      (genAppId genTxId : String) (now : Nat)
  | placeOrder (userId : String) (body : OrderBody)
      (genOrderId genTxId : String) (now : Nat)
  deriving Repr, DecidableEq

/-- Run one coin-affecting request (normal run, no storage fault). -/
def runOp (op : CoinOp) (s : DBState) : DBState :=
  match op with
  | .bookAppointment uid body ga gt now => (postAppointment okOracle uid body ga gt now s).2
  | .placeOrder uid body go gt now => (postOrder okOracle uid body go gt now s).2

/-- Run a sequence of coin-affecting requests. -/
def runOps (ops : List CoinOp) (s : DBState) : DBState :=
  ops.foldl (fun s op => runOp op s) s

/-- Sum of `amount` over the transactions of a user. -/
def txSum (userId : String) (txs : List CoinTransaction) : Int :=
  ((txs.filter (fun t => t.userId == userId)).map (fun t => t.amount)).sum

/-- Sum of `CoinTransaction.amount` over all transactions with the given
`userId` in the store. -/
def ledgerSum (userId : String) (s : DBState) : Int :=
  txSum userId s.coinTransactions

/-- The ledger invariant: the balance of every user equals the sum of their
coin transactions. -/
def CoinInvariant (s : DBState) : Prop :=
  ∀ u ∈ s.users, ledgerSum u.id s = u.coinBalance

instance (s : DBState) : Decidable (CoinInvariant s) := by
  unfold CoinInvariant; infer_instance

/-! ## Lemmas about the sort used by the list queries -/

/-- Descending sortedness on a `Nat` key. -/
def SortedDescBy (key : α → Nat) (l : List α) : Prop :=
  l.Pairwise (fun a b => key b ≤ key a)

theorem mem_insertDescBy (key : α → Nat) (x : α) (l : List α) (a : α) :
    a ∈ insertDescBy key x l ↔ a = x ∨ a ∈ l := by
  induction l with
  | nil => simp [insertDescBy]
  | cons y ys ih =>
      simp only [insertDescBy]
      split
      · simp
      · simp [ih]; tauto

theorem sortedDescBy_insertDescBy (key : α → Nat) (x : α) (l : List α)
    (h : SortedDescBy key l) : SortedDescBy key (insertDescBy key x l) := by
  induction l with
  | nil => simp [insertDescBy, SortedDescBy]
  | cons y ys ih =>
      rcases List.pairwise_cons.mp h with ⟨hy, hys⟩
      simp only [insertDescBy]
      split
      next hlt =>
        refine List.pairwise_cons.mpr ⟨?_, h⟩
        intro z hz
        rcases List.mem_cons.mp hz with rfl | hz
        · exact Nat.le_of_lt hlt
        · exact le_trans (hy z hz) (Nat.le_of_lt hlt)
      next hge =>
        refine List.pairwise_cons.mpr ⟨?_, ih hys⟩
        intro z hz
        rcases (mem_insertDescBy key x ys z).mp hz with rfl | hz
        · exact Nat.le_of_not_lt hge
        · exact hy z hz

theorem sortedDescBy_sortDescBy (key : α → Nat) (l : List α) :
    SortedDescBy key (sortDescBy key l) := by
  induction l with
  | nil => exact List.Pairwise.nil
  | cons x xs ih => exact sortedDescBy_insertDescBy key x _ ih

theorem mem_sortDescBy (key : α → Nat) (l : List α) (a : α) :
    a ∈ sortDescBy key l ↔ a ∈ l := by
  induction l with
  | nil => simp [sortDescBy]
  | cons x xs ih => simp [sortDescBy, mem_insertDescBy, ih]

/-! ## Lemmas about `find?` and row updates -/

theorem find?_map_of_id (f : α → α) (p : α → Bool) (hp : ∀ x, p (f x) = p x)
    (l : List α) : (l.map f).find? p = (l.find? p).map f := by
  induction l with
  | nil => rfl
  | cons x xs ih =>
      by_cases h : p x
      · rw [List.map_cons, List.find?_cons_of_pos _ (by rw [hp]; exact h),
          List.find?_cons_of_pos _ h]
        rfl
      · rw [List.map_cons, List.find?_cons_of_neg _ (by simp [hp, h]),
          List.find?_cons_of_neg _ (by simp [h]), ih]

theorem bumpUser_id (userId : String) (amount : Int) (now : Nat) (u : User) :
    (bumpUser userId amount now u).id = u.id := by
  unfold bumpUser; split <;> rfl

theorem applyUpsert_id (d : UpsertUser) (now : Nat) (u : User) :
    (applyUpsert d now u).id = u.id := rfl

/-! ## Lemmas about the ledger sum -/

theorem txSum_append_single (userId : String) (txs : List CoinTransaction)
    (t : CoinTransaction) :
    txSum userId (txs ++ [t])
      = txSum userId txs + (if t.userId == userId then t.amount else 0) := by
  unfold txSum
  rw [List.filter_append]
  by_cases h : t.userId == userId
  · simp [List.filter, h]
  · simp [List.filter, h]

/-- Invariance is a property of `users` and `coinTransactions` only. -/
theorem coinInvariant_of_eq (s s' : DBState) (hu : s'.users = s.users)
    (ht : s'.coinTransactions = s.coinTransactions) (h : CoinInvariant s) :
    CoinInvariant s' := by
  intro u hmem
  rw [hu] at hmem
  unfold ledgerSum
  rw [ht]
  exact h u hmem

/-- After appending a ledger entry for `userId` with amount `amt` and applying
the matching balance bump, the invariant is preserved. -/
theorem coinInvariant_award (s s' : DBState) (userId : String) (amt : Int)
    (now : Nat) (t : CoinTransaction)
    (husers : s'.users = s.users.map (bumpUser userId amt now))
    (htxs : s'.coinTransactions = s.coinTransactions ++ [t])
    (hid : t.userId = userId) (hamt : t.amount = amt)
    (h : CoinInvariant s) : CoinInvariant s' := by
  intro u hmem
  rw [husers] at hmem
  obtain ⟨v, hv, rfl⟩ := List.mem_map.mp hmem
  unfold ledgerSum
  rw [htxs, bumpUser_id, txSum_append_single, hid, hamt]
  have hbase : txSum v.id s.coinTransactions = v.coinBalance := h v hv
  unfold bumpUser
  by_cases hvid : v.id = userId
  · simp only [hvid, beq_self_eq_true, if_true]
    rw [← hvid]
    simp [hbase]
  · have : (userId == v.id) = false := by
      simp [beq_eq_false_iff_ne]; exact fun he => hvid he.symm
    simp only [this, if_false, Bool.false_eq_true]
    have : (v.id == userId) = false := by simpa [beq_eq_false_iff_ne] using hvid
    simp [this, hbase]

/-- A normal run of `POST /api/appointments` preserves the ledger invariant:
the appended `earned_appointment` entry and the balance bump match. -/
theorem postAppointment_ok_invariant (uid : String) (body : AppointmentBody)
    (ga gt : String) (now : Nat) (s : DBState) (h : CoinInvariant s) :
    CoinInvariant (postAppointment okOracle uid body ga gt now s).2 :=
  coinInvariant_award s _ uid body.coinsEarned now _ rfl rfl rfl rfl h

/-- A normal run of `POST /api/orders` preserves the ledger invariant: either
nothing coin-related changes, or the `redeemed` entry and the deduction match. -/
theorem postOrder_ok_invariant (uid : String) (body : OrderBody)
    (go gt : String) (now : Nat) (s : DBState) (h : CoinInvariant s) :
    CoinInvariant (postOrder okOracle uid body go gt now s).2 := by
  unfold postOrder
  cases hp : parseOrder uid body with
  | none => exact h
  | some d =>
      dsimp only
      by_cases hcu : d.coinsUsed > 0
      · rw [if_pos hcu]
        cases hg : getUser uid s with
        | none => exact h
        | some u =>
            dsimp only
            by_cases hb : u.coinBalance < d.coinsUsed
            · rw [if_pos hb]; exact h
            · rw [if_neg hb]
              exact coinInvariant_award s _ uid (-d.coinsUsed) now _ rfl rfl rfl rfl h
      · rw [if_neg hcu]
        exact coinInvariant_of_eq s _ rfl rfl h

/-- C1: for every user U, after every sequence of coin-affecting operations
(appointment creation that awards coins, order creation that redeems coins),
the sum of `CoinTransaction.amount` over the transactions with `userId = U`
equals the current `coinBalance` of U. -/
theorem coin_ledger_invariant_preserved (ops : List CoinOp) (s : DBState)
    (h : CoinInvariant s) : CoinInvariant (runOps ops s) := by
  induction ops generalizing s with
  | nil => exact h
  | cons op ops ih =>
      rw [runOps, List.foldl_cons]
      cases op with
      | bookAppointment uid body ga gt now =>
          exact ih _ (postAppointment_ok_invariant uid body ga gt now s h)
      | placeOrder uid body go gt now =>
          exact ih _ (postOrder_ok_invariant uid body go gt now s h)

/-- A user with no coin history, and a two-request run: book an appointment
worth 20 coins, then place an order redeeming 5 of them. -/
def user1 : User :=
  { id := "u1", email := "u1@mail", firstName := "Dana",
    coinBalance := 0, createdAt := 0, updatedAt := 0 }

def state1 : DBState :=
  { users := [user1], appointments := [], products := [], orders := [],
    messages := [], coinTransactions := [] }

def ops1 : List CoinOp :=
  [ .bookAppointment "u1"
      { serviceTitle := "תספורת", appointmentDate := 9, coinsEarned := 20 } "a1" "t1" 1,
    .placeOrder "u1" { total := 30, coinsUsed := 5 } "o1" "t2" 2 ]

/-- C1 witness: the invariant holds concretely after booking an appointment
worth 20 coins and then redeeming 5 on an order. -/
theorem coin_ledger_invariant_preserved_witness : CoinInvariant (runOps ops1 state1) :=
  coin_ledger_invariant_preserved ops1 state1 (by decide)

/-! ## Non-atomicity of the multi-step coin units (C2) -/

/-- The `updateUserCoins` call throws (e.g. connectivity loss) after the
ledger append succeeded. -/
def faultBalance : FaultOracle := ⟨false, false, true, false⟩

/-- The `createOrder` call throws after the redemption succeeded. -/
def faultOrder : FaultOracle := ⟨false, false, false, true⟩

/-- A user holding 50 coins, with the matching one-entry ledger. -/
def user2 : User :=
  { id := "u2", email := "u2@mail", firstName := "Noa",
    coinBalance := 50, createdAt := 0, updatedAt := 0 }

def state2 : DBState :=
  { users := [user2], appointments := [], products := [], orders := [],
    messages := [],
    coinTransactions := [{ id := "t0", userId := "u2", amount := 50,
                           txType := "earned_appointment", txDescription := "d0",
                           relatedId := none, createdAt := 0 }] }

/-- The appointment request run against `state2` with the balance update failing. -/
def awardFaultRun : RouteOutcome Appointment × DBState :=
  postAppointment faultBalance "u2"
    { serviceTitle := "תספורת", appointmentDate := 9, coinsEarned := 20 } "a2" "t3" 3 state2

/-- The order request run against `state2` with the order insert failing. -/
def orderFaultRun : RouteOutcome Order × DBState :=
  postOrder faultOrder "u2" { total := 9, coinsUsed := 30 } "o2" "t4" 4 state2

/-- C2 (refuting): the two multi-step coin units are not atomic.  When the
balance update of the award unit throws, the request fails but the appended
`earned_appointment` ledger entry survives with the balance unchanged; when
the order insert throws after redemption, the request fails but the deducted
balance and the `redeemed` ledger entry survive with no order row — nothing
is rolled back. -/
theorem coin_units_not_atomic :
    (awardFaultRun.1 = .badRequest "StorageError"
      ∧ awardFaultRun.2.coinTransactions.map (fun t => (t.userId, t.amount))
          = [("u2", 50), ("u2", 20)]
      ∧ getUser "u2" awardFaultRun.2 = some user2
      ∧ ¬ CoinInvariant awardFaultRun.2)
    ∧ (orderFaultRun.1 = .badRequest "StorageError"
      ∧ getUser "u2" orderFaultRun.2
          = some { user2 with coinBalance := 20, updatedAt := 4 }
      ∧ orderFaultRun.2.coinTransactions.map (fun t => (t.userId, t.amount))
          = [("u2", 50), ("u2", -30)]
      ∧ orderFaultRun.2.orders = []) := by
  decide

/-! ## The redemption boundary (C3) -/

theorem find?_users_bump (uid : String) (amt : Int) (now : Nat) (l : List User) :
    (l.map (bumpUser uid amt now)).find? (fun v => v.id == uid)
      = (l.find? (fun v => v.id == uid)).map (bumpUser uid amt now) :=
  find?_map_of_id _ _ (fun x => by rw [bumpUser_id]) l

/-- With sufficient funds (`0 < coinsUsed ≤ balance`), the order route
succeeds and deducts the coins from the user rows. -/
theorem postOrder_hasFunds (uid : String) (body : OrderBody) (go gt : String)
    (now : Nat) (s : DBState) (u : User)
    (hu : getUser uid s = some u) (hpos : 0 < body.coinsUsed)
    (hle : body.coinsUsed ≤ u.coinBalance) :
    (∃ ord, (postOrder okOracle uid body go gt now s).1 = .ok ord) ∧
    (postOrder okOracle uid body go gt now s).2.users
      = s.users.map (bumpUser uid (-body.coinsUsed) now) := by
  unfold postOrder
  have hparse : parseOrder uid body
      = some { userId := uid, total := body.total, coinsUsed := body.coinsUsed } := by
    unfold parseOrder; rw [if_neg (by omega)]
  rw [hparse]
  dsimp only
  rw [if_pos (by exact hpos), hu]
  dsimp only
  rw [if_neg (by omega)]
  exact ⟨⟨_, rfl⟩, rfl⟩

/-- With `coinsUsed = 0`, the order route skips the whole redemption block. -/
theorem postOrder_zeroCoins (uid : String) (body : OrderBody) (go gt : String)
    (now : Nat) (s : DBState) (h0 : body.coinsUsed = 0) :
    (∃ ord, (postOrder okOracle uid body go gt now s).1 = .ok ord) ∧
    (postOrder okOracle uid body go gt now s).2.users = s.users := by
  unfold postOrder
  have hparse : parseOrder uid body
      = some { userId := uid, total := body.total, coinsUsed := body.coinsUsed } := by
    unfold parseOrder; rw [if_neg (by omega)]
  rw [hparse]
  dsimp only
  rw [if_neg (by omega)]
  exact ⟨⟨_, rfl⟩, rfl⟩

/-- With insufficient funds the order route answers 400 and leaves the whole
state untouched. -/
theorem postOrder_insufficient (uid : String) (body : OrderBody) (go gt : String)
    (now : Nat) (s : DBState) (u : User)
    (hu : getUser uid s = some u) (hpos : 0 < body.coinsUsed)
    (hgt : u.coinBalance < body.coinsUsed) :
    postOrder okOracle uid body go gt now s = (.badRequest "אין מספיק מטבעות", s) := by
  unfold postOrder
  have hparse : parseOrder uid body
      = some { userId := uid, total := body.total, coinsUsed := body.coinsUsed } := by
    unfold parseOrder; rw [if_neg (by omega)]
  rw [hparse]
  dsimp only
  rw [if_pos (by exact hpos), hu]
  dsimp only
  rw [if_pos (by exact hgt)]

/-- C3: for a user with balance `B ≥ 0`, an order redeeming exactly `B`
succeeds and leaves the balance at 0, while an order redeeming `B + 1` fails
with the insufficient-funds answer and leaves the whole store — balance and
ledger included — unchanged. -/
theorem redeem_boundary (s : DBState) (uid : String) (u : User)
    (go1 gt1 go2 gt2 : String) (t1 t2 : Int) (now : Nat)
    (hu : getUser uid s = some u) (hb : 0 ≤ u.coinBalance) :
    (∃ ord, (postOrder okOracle uid { total := t1, coinsUsed := u.coinBalance }
        go1 gt1 now s).1 = .ok ord) ∧
    (∃ u2, getUser uid (postOrder okOracle uid { total := t1, coinsUsed := u.coinBalance }
        go1 gt1 now s).2 = some u2 ∧ u2.coinBalance = 0) ∧
    (postOrder okOracle uid { total := t2, coinsUsed := u.coinBalance + 1 }
        go2 gt2 now s).1 = .badRequest "אין מספיק מטבעות" ∧
    (postOrder okOracle uid { total := t2, coinsUsed := u.coinBalance + 1 }
        go2 gt2 now s).2 = s := by
  have hins := postOrder_insufficient uid { total := t2, coinsUsed := u.coinBalance + 1 }
    go2 gt2 now s u hu (by show 0 < u.coinBalance + 1; omega)
    (by show u.coinBalance < u.coinBalance + 1; omega)
  refine ⟨?_, ?_, by rw [hins], by rw [hins]⟩
  · by_cases hpos : 0 < u.coinBalance
    · exact (postOrder_hasFunds uid _ go1 gt1 now s u hu hpos (le_refl _)).1
    · exact (postOrder_zeroCoins uid _ go1 gt1 now s
        (by show u.coinBalance = 0; omega)).1
  · by_cases hpos : 0 < u.coinBalance
    · have h := postOrder_hasFunds uid { total := t1, coinsUsed := u.coinBalance }
        go1 gt1 now s u hu hpos (le_refl _)
      refine ⟨bumpUser uid (-u.coinBalance) now u, ?_, ?_⟩
      · show ((postOrder okOracle uid { total := t1, coinsUsed := u.coinBalance }
            go1 gt1 now s).2).users.find? (fun v => v.id == uid) = _
        rw [h.2, find?_users_bump]
        have hfu : s.users.find? (fun v => v.id == uid) = some u := hu
        rw [hfu]
        rfl
      · have hfu : s.users.find? (fun v => v.id == uid) = some u := hu
        have hpu : (u.id == uid) = true := by simpa using List.find?_some hfu
        unfold bumpUser
        rw [if_pos hpu]
        simp
    · have h := postOrder_zeroCoins uid { total := t1, coinsUsed := u.coinBalance }
        go1 gt1 now s (by show u.coinBalance = 0; omega)
      refine ⟨u, ?_, by omega⟩
      show ((postOrder okOracle uid { total := t1, coinsUsed := u.coinBalance }
          go1 gt1 now s).2).users.find? (fun v => v.id == uid) = some u
      rw [h.2]
      exact hu

/-- A user holding 5 coins, with the matching ledger. -/
def user3 : User :=
  { id := "u3", email := "u3@mail", firstName := "Avi",
    coinBalance := 5, createdAt := 0, updatedAt := 0 }

def state3 : DBState :=
  { users := [user3], appointments := [], products := [], orders := [],
    messages := [],
    coinTransactions := [{ id := "t5", userId := "u3", amount := 5,
                           txType := "earned_appointment", txDescription := "d",
                           relatedId := none, createdAt := 0 }] }

/-- C3 witness: with balance 5, redeeming 5 succeeds and redeeming 6 leaves
the store untouched. -/
theorem redeem_boundary_witness :
    (∃ ord, (postOrder okOracle "u3" { total := 7, coinsUsed := user3.coinBalance }
        "o3" "t6" 9 state3).1 = .ok ord) ∧
    (postOrder okOracle "u3" { total := 8, coinsUsed := user3.coinBalance + 1 }
        "o4" "t7" 9 state3).2 = state3 := by
  have h := redeem_boundary state3 "u3" user3 "o3" "t6" "o4" "t7" 7 8 9
    (by decide) (by decide)
  exact ⟨h.1, h.2.2.2⟩

/-! ## `updateUserCoins` semantics (C4) -/

def emptyDB : DBState :=
  { users := [], appointments := [], products := [], orders := [],
    messages := [], coinTransactions := [] }

/-- C4 counterexample: called for an id with no user row, `updateUserCoins`
does not error.  The update matches no row, `.returning()` yields the empty
array, and the method resolves normally with the absent destructured value
and an unchanged store (a thrown error would instead surface through the
catch path of the caller). -/
theorem updateUserCoins_missing_user_no_error :
    updateUserCoins "u1" 5 7 emptyDB = (none, emptyDB) := by decide

/-- C4 as amended: `updateUserCoins(userId, delta)` applies the relative
update `balance = balance + delta` row-wise at the storage layer and returns
the updated user row; when no user with that id exists it returns the absent
value and leaves the store unchanged, rather than erroring. -/
theorem updateUserCoins_relative (uid : String) (amt : Int) (now : Nat)
    (s : DBState) :
    (∀ u, getUser uid s = some u →
      (updateUserCoins uid amt now s).1
        = some { u with coinBalance := u.coinBalance + amt, updatedAt := now }) ∧
    (getUser uid s = none → updateUserCoins uid amt now s = (none, s)) ∧
    (updateUserCoins uid amt now s).2.users.length = s.users.length ∧
    (∀ i : Fin s.users.length,
      ∃ h : i.val < (updateUserCoins uid amt now s).2.users.length,
        ((updateUserCoins uid amt now s).2.users.get ⟨i.val, h⟩).coinBalance
          = (s.users.get i).coinBalance
            + (if (s.users.get i).id = uid then amt else 0)) ∧
    (updateUserCoins uid amt now s).2.coinTransactions = s.coinTransactions := by
  refine ⟨?_, ?_, ?_, ?_, rfl⟩
  · intro u hu
    show (s.users.map (bumpUser uid amt now)).find? (fun v => v.id == uid) = _
    rw [find?_users_bump]
    have hfu : s.users.find? (fun v => v.id == uid) = some u := hu
    rw [hfu]
    have hpu : (u.id == uid) = true := by simpa using List.find?_some hfu
    show some (bumpUser uid amt now u) = _
    unfold bumpUser
    rw [if_pos hpu]
  · intro hn
    have hfn : s.users.find? (fun v => v.id == uid) = none := hn
    have h1 : (updateUserCoins uid amt now s).1 = none := by
      show (s.users.map (bumpUser uid amt now)).find? (fun v => v.id == uid) = none
      rw [find?_users_bump, hfn]
      rfl
    have h2 : s.users.map (bumpUser uid amt now) = s.users := by
      have hall := List.find?_eq_none.mp hfn
      calc s.users.map (bumpUser uid amt now)
          = s.users.map id := List.map_congr_left (fun v hv => by
            unfold bumpUser
            rw [if_neg (by simpa using hall v hv)]
            rfl)
        _ = s.users := List.map_id _
    have h3 : (updateUserCoins uid amt now s).2 = s := by
      show { s with users := s.users.map (bumpUser uid amt now) } = s
      rw [h2]
    exact Prod.ext h1 h3
  · show (s.users.map (bumpUser uid amt now)).length = s.users.length
    rw [List.length_map]
  · intro i
    have hlen : (updateUserCoins uid amt now s).2.users.length = s.users.length := by
      show (s.users.map (bumpUser uid amt now)).length = s.users.length
      rw [List.length_map]
    refine ⟨by rw [hlen]; exact i.isLt, ?_⟩
    have hget : (s.users.map (bumpUser uid amt now)).get
          ⟨i.val, by rw [List.length_map]; exact i.isLt⟩
        = bumpUser uid amt now (s.users.get i) := by
      simp [List.get_eq_getElem, List.getElem_map]
    show ((s.users.map (bumpUser uid amt now)).get ⟨i.val, _⟩).coinBalance = _
    rw [hget]
    unfold bumpUser
    by_cases h : (s.users.get i).id = uid
    · rw [if_pos (by simpa using h), if_pos h]
    · rw [if_neg (by simpa using h), if_neg h, add_zero]

/-- C4 witness: the amended statement evaluated at a present user (balance
5 + 2) and at a missing user (absent result, unchanged store). -/
theorem updateUserCoins_relative_witness :
    (updateUserCoins "u3" 2 9 state3).1
      = some { user3 with coinBalance := user3.coinBalance + 2, updatedAt := 9 } ∧
    updateUserCoins "zz" 2 9 emptyDB = (none, emptyDB) :=
  ⟨(updateUserCoins_relative "u3" 2 9 state3).1 user3 (by decide),
   (updateUserCoins_relative "zz" 2 9 emptyDB).2.1 (by decide)⟩

/-! ## Validation precedes mutation (C5) -/

/-- C5: a validation failure on `POST /api/orders` — e.g. a negative coin
amount — is detected before any storage call, so the request is rejected and
the store (balance, ledger, and every table) is returned unchanged, whatever
faults the storage layer would have produced on later calls. -/
theorem validation_blocks_writes (uid : String) (body : OrderBody)
    (go gt : String) (now : Nat) (s : DBState) (o : FaultOracle) :
    (body.coinsUsed < 0 → parseOrder uid body = none) ∧
    (parseOrder uid body = none →
      postOrder o uid body go gt now s = (.badRequest "ValidationFailed", s)) := by
  constructor
  · intro h
    unfold parseOrder
    rw [if_pos h]
  · intro h
    unfold postOrder
    rw [h]

/-- C5 witness: an order with `coinsUsed = -1` is rejected by validation and
the store is untouched. -/
theorem validation_blocks_writes_witness :
    postOrder okOracle "u9" { total := 3, coinsUsed := -1 } "o9" "t9" 0 emptyDB
      = (.badRequest "ValidationFailed", emptyDB) := by
  have h := validation_blocks_writes "u9" { total := 3, coinsUsed := -1 }
    "o9" "t9" 0 emptyDB okOracle
  exact h.2 (h.1 (by decide))

/-! ## Idempotence of `upsertUser` (C6) -/

theorem upsertRow_id (d : UpsertUser) (now : Nat) (v : User) :
    (upsertRow d now v).id = v.id := by
  unfold upsertRow
  split
  · rfl
  · rfl

/-- Reduction of `upsertUser` when a conflicting row exists. -/
theorem upsertUser_found (d : UpsertUser) (now : Nat) (s : DBState) (u : User)
    (h : s.users.find? (fun v => v.id == d.id) = some u) :
    upsertUser d now s
      = (applyUpsert d now u, { s with users := s.users.map (upsertRow d now) }) := by
  unfold upsertUser
  rw [h]

/-- The core fields of a persisted user: everything except the update
timestamp. -/
def userCore (u : User) : String × String × String × Int × Nat :=
  (u.id, u.email, u.firstName, u.coinBalance, u.createdAt)

theorem userCore_upsertRow_upsertRow (d : UpsertUser) (t1 t2 : Nat) (l : List User) :
    ((l.map (upsertRow d t1)).map (upsertRow d t2)).map userCore
      = (l.map (upsertRow d t1)).map userCore := by
  rw [List.map_map, List.map_map, List.map_map]
  refine List.map_congr_left (fun v _ => ?_)
  show userCore (upsertRow d t2 (upsertRow d t1 v)) = userCore (upsertRow d t1 v)
  by_cases hv : (v.id == d.id) = true
  · unfold upsertRow
    rw [if_pos hv]
    rw [if_pos (show ((applyUpsert d t1 v).id == d.id) = true from hv)]
    rfl
  · unfold upsertRow
    rw [if_neg hv]
    rw [if_neg hv]

/-- C6: `upsertUser` is idempotent.  Calling it twice with identical data
yields the same persisted row — the returned row and the whole users table
agree on id and all core fields; only the update timestamp advances to the
clock of the second call. -/
theorem upsertUser_idempotent (d : UpsertUser) (t1 t2 : Nat) (s : DBState) :
    userCore (upsertUser d t2 (upsertUser d t1 s).2).1
      = userCore (upsertUser d t1 s).1 ∧
    (upsertUser d t2 (upsertUser d t1 s).2).1.updatedAt = t2 ∧
    (upsertUser d t2 (upsertUser d t1 s).2).2.users.map userCore
      = (upsertUser d t1 s).2.users.map userCore := by
  cases hf : s.users.find? (fun u => u.id == d.id) with
  | some u =>
      have h1 := upsertUser_found d t1 s u hf
      have hfu : (u.id == d.id) = true := by simpa using List.find?_some hf
      have hfind2 : (upsertUser d t1 s).2.users.find? (fun v => v.id == d.id)
          = some (applyUpsert d t1 u) := by
        rw [h1]
        show (s.users.map (upsertRow d t1)).find? (fun v => v.id == d.id) = _
        rw [find?_map_of_id _ _ (fun x => by rw [upsertRow_id]) s.users, hf]
        show some (upsertRow d t1 u) = _
        unfold upsertRow
        rw [if_pos hfu]
      have h2 := upsertUser_found d t2 (upsertUser d t1 s).2 (applyUpsert d t1 u) hfind2
      refine ⟨?_, ?_, ?_⟩
      · rw [h2, h1]
        rfl
      · rw [h2]
        rfl
      · rw [h2]
        show ((upsertUser d t1 s).2.users.map (upsertRow d t2)).map userCore
          = (upsertUser d t1 s).2.users.map userCore
        rw [h1]
        exact userCore_upsertRow_upsertRow d t1 t2 s.users
  | none =>
      have h1 : upsertUser d t1 s
          = ({ id := d.id, email := d.email, firstName := d.firstName,
               coinBalance := 0, createdAt := t1, updatedAt := t1 },
             { s with users := s.users
                 ++ [{ id := d.id, email := d.email, firstName := d.firstName,
                       coinBalance := 0, createdAt := t1, updatedAt := t1 }] }) := by
        unfold upsertUser
        rw [hf]
      have hfind2 : (upsertUser d t1 s).2.users.find? (fun v => v.id == d.id)
          = some { id := d.id, email := d.email, firstName := d.firstName,
                   coinBalance := 0, createdAt := t1, updatedAt := t1 } := by
        rw [h1]
        dsimp only
        rw [List.find?_append, hf]
        simp
      have h2 := upsertUser_found d t2 (upsertUser d t1 s).2 _ hfind2
      refine ⟨?_, ?_, ?_⟩
      · rw [h2, h1]
        rfl
      · rw [h2]
        rfl
      · rw [h2]
        show ((upsertUser d t1 s).2.users.map (upsertRow d t2)).map userCore
          = (upsertUser d t1 s).2.users.map userCore
        rw [h1]
        dsimp only
        rw [List.map_append, List.map_append, List.map_append]
        have hpre : (s.users.map (upsertRow d t2)).map userCore
            = s.users.map userCore := by
          rw [List.map_map]
          refine List.map_congr_left (fun (v : User) hv => ?_)
          have hvne := List.find?_eq_none.mp hf v hv
          show userCore (upsertRow d t2 v) = userCore v
          unfold upsertRow
          rw [if_neg hvne]
        rw [hpre]
        simp [upsertRow, applyUpsert, userCore]

/-! ## Product visibility (C7) -/

/-- In a table with duplicate-free ids, the first-row lookup of the id of a member
returns exactly that member. -/
theorem find?_eq_of_mem_nodup_ids (l : List Product) (p : Product)
    (hnd : (l.map (fun q => q.id)).Nodup) (hmem : p ∈ l) :
    l.find? (fun q => q.id == p.id) = some p := by
  induction l with
  | nil => cases hmem
  | cons x xs ih =>
      rw [List.map_cons, List.nodup_cons] at hnd
      rcases List.mem_cons.mp hmem with rfl | hmem2
      · rw [List.find?_cons_of_pos _ (by simp)]
      · have hxf : (x.id == p.id) = false := by
          rw [beq_eq_false_iff_ne]
          intro he
          exact hnd.1 (he ▸ List.mem_map.mpr ⟨p, hmem2, rfl⟩)
        rw [List.find?_cons, hxf]
        exact ih hnd.2 hmem2

/-- C7: a product with `isActive = false` never appears in `getProducts()` —
whose results are exactly the active products — yet `getProduct(id)` still
returns it. -/
theorem inactive_product_hidden_but_retrievable (s : DBState) (p : Product)
    (hmem : p ∈ s.products) (hinactive : p.isActive = false)
    (hids : (s.products.map (fun q => q.id)).Nodup) :
    p ∉ getProducts s ∧ getProduct p.id s = some p ∧
    ∀ q, q ∈ getProducts s ↔ (q ∈ s.products ∧ q.isActive = true) := by
  refine ⟨?_, find?_eq_of_mem_nodup_ids s.products p hids hmem, ?_⟩
  · intro hq
    unfold getProducts at hq
    rw [mem_sortDescBy, List.mem_filter] at hq
    rw [hinactive] at hq
    cases hq.2
  · intro q
    unfold getProducts
    rw [mem_sortDescBy, List.mem_filter]

/-- A store with one active and one inactive product. -/
def productA : Product :=
  { id := "pA", title := "shampoo", price := 40, isActive := true,
    createdAt := 1, updatedAt := 1 }

def productB : Product :=
  { id := "pB", title := "wax", price := 25, isActive := false,
    createdAt := 2, updatedAt := 3 }

def state4 : DBState :=
  { users := [], appointments := [], products := [productA, productB],
    orders := [], messages := [], coinTransactions := [] }

/-- C7 witness: the inactive product is hidden from the listing but found by
direct id lookup. -/
theorem inactive_product_hidden_but_retrievable_witness :
    productB ∉ getProducts state4 ∧ getProduct "pB" state4 = some productB :=
  ⟨(inactive_product_hidden_but_retrievable state4 productB (by decide) (by decide)
      (by decide)).1,
   (inactive_product_hidden_but_retrievable state4 productB (by decide) (by decide)
      (by decide)).2.1⟩

/-! ## Deterministic ordering of the list queries (C8) -/

/-- C8: every list query returns rows ordered by creation time descending,
except the per-user appointment listing, which orders by appointment date
descending. -/
theorem list_queries_ordered (s : DBState) (uid : String) :
    SortedDescBy (fun a => a.appointmentDate) (getUserAppointments uid s) ∧
    SortedDescBy (fun a => a.createdAt) (getAllAppointments s) ∧
    SortedDescBy (fun p => p.createdAt) (getProducts s) ∧
    SortedDescBy (fun o => o.createdAt) (getUserOrders uid s) ∧
    SortedDescBy (fun o => o.createdAt) (getAllOrders s) ∧
    SortedDescBy (fun m => m.createdAt) (getUserMessages uid s) ∧
    SortedDescBy (fun m => m.createdAt) (getAdminMessages s) ∧
    SortedDescBy (fun t => t.createdAt) (getUserCoinTransactions uid s) :=
  ⟨sortedDescBy_sortDescBy _ _, sortedDescBy_sortDescBy _ _,
   sortedDescBy_sortDescBy _ _, sortedDescBy_sortDescBy _ _,
   sortedDescBy_sortDescBy _ _, sortedDescBy_sortDescBy _ _,
   sortedDescBy_sortDescBy _ _, sortedDescBy_sortDescBy _ _⟩

/-! ## Absent single-row reads (C9) -/

/-- C9: `getUser` and `getProduct` on an id with no matching row return the
absent value — their return type is an optional row, and a missing row is
`none`, not an error. -/
theorem absent_single_row_reads (s : DBState) (id : String)
    (hu : ∀ u ∈ s.users, u.id ≠ id) (hp : ∀ q ∈ s.products, q.id ≠ id) :
    getUser id s = none ∧ getProduct id s = none := by
  constructor
  · unfold getUser
    rw [List.find?_eq_none]
    intro u hu2
    simp [hu u hu2]
  · unfold getProduct
    rw [List.find?_eq_none]
    intro q hq2
    simp [hp q hq2]

/-- C9 witness: a lookup of an unknown id in a non-empty store yields `none`
for both reads. -/
theorem absent_single_row_reads_witness :
    getUser "zz" state3 = none ∧ getProduct "zz" state4 = none :=
  ⟨(absent_single_row_reads state3 "zz" (by decide) (by decide)).1,
   (absent_single_row_reads state4 "zz" (by decide) (by decide)).2⟩

/-! ## `updateAppointmentStatus` stores any string, frame-preserving (C10) -/

theorem setStatus_id (id st : String) (a : Appointment) :
    (setStatus id st a).id = a.id := by
  unfold setStatus
  split
  · rfl
  · rfl

/-- Every field of an appointment except `status`. -/
def appointmentFrame (a : Appointment) : String × String × String × Nat × Int × Nat :=
  (a.id, a.userId, a.serviceTitle, a.appointmentDate, a.coinsEarned, a.createdAt)

/-- C10: for an appointment id present in the store and an arbitrary string —
no validation against the lifecycle enum happens — `updateAppointmentStatus`
returns a row carrying exactly that status, stores it on the matching rows,
and changes nothing else: the non-status fields of every appointment, the
appointments with a different id, and all other tables are untouched. -/
theorem updateAppointmentStatus_stores_any_string (s : DBState) (id st : String)
    (hmem : ∃ a ∈ s.appointments, a.id = id) :
    (∃ a2, (updateAppointmentStatus id st s).1 = some a2 ∧ a2.status = st) ∧
    ((updateAppointmentStatus id st s).2.appointments.map appointmentFrame
      = s.appointments.map appointmentFrame) ∧
    (∀ a ∈ (updateAppointmentStatus id st s).2.appointments,
      a.id = id → a.status = st) ∧
    (∀ a ∈ s.appointments, a.id ≠ id →
      a ∈ (updateAppointmentStatus id st s).2.appointments) ∧
    (updateAppointmentStatus id st s).2.users = s.users ∧
    (updateAppointmentStatus id st s).2.products = s.products ∧
    (updateAppointmentStatus id st s).2.orders = s.orders ∧
    (updateAppointmentStatus id st s).2.messages = s.messages ∧
    (updateAppointmentStatus id st s).2.coinTransactions = s.coinTransactions := by
  refine ⟨?_, ?_, ?_, ?_, rfl, rfl, rfl, rfl, rfl⟩
  · obtain ⟨a, ha, haid⟩ := hmem
    have hsome : (s.appointments.map (setStatus id st)).find? (fun b => b.id == id)
        = (s.appointments.find? (fun b => b.id == id)).map (setStatus id st) :=
      find?_map_of_id _ _ (fun x => by rw [setStatus_id]) s.appointments
    cases hfa : s.appointments.find? (fun b => b.id == id) with
    | none =>
        exact absurd (show (a.id == id) = true by simp [haid])
          (by simpa using List.find?_eq_none.mp hfa a ha)
    | some b =>
        have hbid : (b.id == id) = true := by simpa using List.find?_some hfa
        refine ⟨setStatus id st b, ?_, ?_⟩
        · show (s.appointments.map (setStatus id st)).find? (fun c => c.id == id) = _
          rw [hsome, hfa]
          rfl
        · unfold setStatus
          rw [if_pos hbid]
  · show (s.appointments.map (setStatus id st)).map appointmentFrame
      = s.appointments.map appointmentFrame
    rw [List.map_map]
    refine List.map_congr_left (fun (a : Appointment) _ => ?_)
    show appointmentFrame (setStatus id st a) = appointmentFrame a
    unfold setStatus
    by_cases hc : (a.id == id) = true
    · rw [if_pos hc]
      rfl
    · rw [if_neg hc]
  · intro a hmem2 haid
    obtain ⟨b, hb, rfl⟩ := List.mem_map.mp hmem2
    unfold setStatus at haid ⊢
    by_cases hc : (b.id == id) = true
    · rw [if_pos hc]
    · rw [if_neg hc] at haid ⊢
      exact absurd (show (b.id == id) = true by simp [haid]) hc
  · intro a hmem2 hane
    refine List.mem_map.mpr ⟨a, hmem2, ?_⟩
    unfold setStatus
    rw [if_neg (by simpa using hane)]

/-- A store with a single appointment in the `created` state. -/
def appt1 : Appointment :=
  { id := "a7", userId := "u7", serviceTitle := "צבע", appointmentDate := 11,
    coinsEarned := 10, status := "created", createdAt := 4 }

def state5 : DBState :=
  { users := [], appointments := [appt1], products := [], orders := [],
    messages := [], coinTransactions := [] }

/-- C10 witness: a string far outside the lifecycle enum is stored verbatim
and the other tables stay untouched. -/
theorem updateAppointmentStatus_stores_any_string_witness :
    (∃ a2, (updateAppointmentStatus "a7" "no-such-lifecycle-state" state5).1 = some a2
      ∧ a2.status = "no-such-lifecycle-state") ∧
    (updateAppointmentStatus "a7" "no-such-lifecycle-state" state5).2.users
      = state5.users := by
  have h := updateAppointmentStatus_stores_any_string state5 "a7"
    "no-such-lifecycle-state" ⟨appt1, by decide, by decide⟩
  exact ⟨h.1, h.2.2.2.2.1⟩
